import Mathlib

/-!
Verification of the ThreadPipe SPMC pipe (`src/pipe.h`) against its
natural-language specification.

The C code is shallowly embedded: the pipe state is a Lean structure whose
counters are natural numbers kept below `2 ^ 32` (unsigned 32-bit arithmetic is
made explicit through `add32` / `sub32`), the two arrays are functions out of
`Fin TS_PIPE_SIZE`, and the three operations are pure state transformers.  The
unbounded C `while` loops are given an explicit fuel argument; running out of
fuel is modelled as the call mutating nothing and reporting failure, which is
exactly what a non-terminating execution of the loop does (the loops mutate no
shared state before their successful compare-and-swap).  Every atomic load or
store collapses to a plain read or write because the embedding is sequential.

Each operation additionally returns ghost instrumentation that the C code does
not carry: the ordered list of stores performed on the `flags` array
(`events`), and the value accepted by a successful write (`wrote`).  These
fields drive the trace-level bookkeeping (multisets of written and delivered
values, per-slot flag histories) needed to state the specification's
invariants; they do not influence the computed state.
-/

namespace ThreadPipe

/-- `2 ^ 32`, the modulus of the `uint32_t` counters. -/
def M32 : ℕ := 4294967296

/-- `TS_PIPE_SIZE_LOG2 = 8` from the enum in `pipe.h`. -/
def TS_PIPE_SIZE_LOG2 : ℕ := 8

/-- `TS_PIPE_SIZE = 2 << TS_PIPE_SIZE_LOG2` (= 512). -/
def TS_PIPE_SIZE : ℕ := 2 <<< TS_PIPE_SIZE_LOG2

/-- `TS_PIPE_MASK = TS_PIPE_SIZE - 1`. -/
def TS_PIPE_MASK : ℕ := TS_PIPE_SIZE - 1

/-- Sentinel flag value: slot holds a published, unclaimed payload. -/
def TS_PIPE_READABLE : ℕ := 0x11111111

/-- Sentinel flag value: slot is empty and the writer may publish into it. -/
def TS_PIPE_WRITABLE : ℕ := 0x00000000

/-- Sentinel flag value: slot has been claimed by a reader (in flight). -/
def TS_PIPE_INVALID : ℕ := 0xFFFFFFFF

/-- Unsigned 32-bit addition: `(a + b) mod 2^32`. -/
def add32 (a b : ℕ) : ℕ := (a + b) % M32

/-- Unsigned 32-bit subtraction `a - b` (two's complement wraparound). -/
def sub32 (a b : ℕ) : ℕ := (a + (M32 - b % M32)) % M32

/-- Slot lookup `i & TS_PIPE_MASK`, packaged with its in-bounds proof.  Every
array access in the three operations goes through this function, mirroring the
`index & TS_PIPE_MASK` expressions in the C code. -/
def slot (i : ℕ) : Fin TS_PIPE_SIZE :=
  ⟨i &&& TS_PIPE_MASK, lt_of_le_of_lt Nat.and_le_right (by decide)⟩

/-- The pipe state: `struct TSpipe` from `pipe.h`.  Buffer payloads are bare
naturals (the C payload type is an opaque machine word that the pipe never
computes with). -/
structure TSpipe where
  buffer : Fin TS_PIPE_SIZE → ℕ
  flags : Fin TS_PIPE_SIZE → ℕ
  writeIndex : ℕ
  readIndex : ℕ
  readCount : ℕ

/-- `tsPipeInit`: `memset` the buffer to zero and zero the three counters.
Note that the C code does NOT touch the `flags` array. -/
def tsPipeInit (pipe : TSpipe) : TSpipe :=
  { pipe with buffer := fun _ => 0, readIndex := 0, writeIndex := 0, readCount := 0 }

/-- `tsPipeIsEmpty`: `writeIndex - readCount == 0` (unsigned). -/
def tsPipeIsEmpty (pipe : TSpipe) : Bool :=
  sub32 pipe.writeIndex pipe.readCount == 0

/-- Result of one operation: the C return value, the value stored through the
`out` pointer (if any), the post state, plus ghost instrumentation: the list of
stores performed on `flags` (slot, stored value) in program order, and the
payload accepted by a successful write. -/
structure OpResult where
  ret : ℕ
  out : Option ℕ
  post : TSpipe
  events : List (Fin TS_PIPE_SIZE × ℕ)
  wrote : Option ℕ

/-- Outcome of the retry loop inside `tsPipeReaderTryReadBack`. -/
inductive ReadLoopResult where
  | empty : ReadLoopResult
  | claimed : Fin TS_PIPE_SIZE → ReadLoopResult

/-- The refresh of the local `readIndexToUse` in the loop of
`tsPipeReaderTryReadBack`: when the candidate has run past the observed
`writeIndex`, catch up from the shared `readIndex` hint. -/
def readBackCandidate (pipe : TSpipe) (readIndexToUse : ℕ) : ℕ :=
  if readIndexToUse ≥ pipe.writeIndex then pipe.readIndex else readIndexToUse

/-- The `while (1)` loop of `tsPipeReaderTryReadBack`, parameterised by the
local variables `readCount` and `readIndexToUse` and by fuel.  `none` means the
fuel ran out (the C loop would keep spinning); `some .empty` is the
`return 0` on the empty observation; `some (.claimed i)` is a winning
compare-and-swap on `flags[i]`.  On a failed compare-and-swap the candidate is
incremented and the local `readCount` is reloaded. -/
def tsPipeReaderTryReadBackLoop (pipe : TSpipe) : ℕ → ℕ → ℕ → Option ReadLoopResult
  | _, _, 0 => none
  | readCount, readIndexToUse, fuel + 1 =>
    if sub32 pipe.writeIndex readCount = 0 then some .empty
    else if pipe.flags (slot (readBackCandidate pipe readIndexToUse)) = TS_PIPE_READABLE then
      some (.claimed (slot (readBackCandidate pipe readIndexToUse)))
    else
      tsPipeReaderTryReadBackLoop pipe pipe.readCount
        (add32 (readBackCandidate pipe readIndexToUse) 1) fuel

/-- `tsPipeReaderTryReadBack`.  On a winning compare-and-swap the flag first
becomes `TS_PIPE_INVALID`, `readCount` is incremented, the payload is copied
out, and the flag is released back to `TS_PIPE_WRITABLE`. -/
def tsPipeReaderTryReadBack (fuel : ℕ) (pipe : TSpipe) : OpResult :=
  match tsPipeReaderTryReadBackLoop pipe pipe.readCount pipe.readCount fuel with
  | none => ⟨0, none, pipe, [], none⟩
  | some .empty => ⟨0, none, pipe, [], none⟩
  | some (.claimed i) =>
    ⟨1, some (pipe.buffer i),
      { pipe with
          flags := Function.update (Function.update pipe.flags i TS_PIPE_INVALID) i
            TS_PIPE_WRITABLE,
          readCount := add32 pipe.readCount 1 },
      [(i, TS_PIPE_INVALID), (i, TS_PIPE_WRITABLE)], none⟩

/-- Outcome of the retry loop inside `tsPipeWriterTryReadFront`.  The empty
outcome carries the `readCount` value loaded in that iteration, which the
function publishes into `readIndex` before returning 0. -/
inductive FrontLoopResult where
  | empty : ℕ → FrontLoopResult
  | claimed : Fin TS_PIPE_SIZE → FrontLoopResult
  | lost : FrontLoopResult

/-- The `while (1)` loop of `tsPipeWriterTryReadFront`, parameterised by the
snapshot `writeIndex`, the local `frontReadIndex` and fuel. -/
def tsPipeWriterTryReadFrontLoop (pipe : TSpipe) (writeIndex : ℕ) : ℕ → ℕ → Option FrontLoopResult
  | _, 0 => none
  | frontReadIndex, fuel + 1 =>
    if sub32 writeIndex pipe.readCount = 0 then some (.empty pipe.readCount)
    else if pipe.flags (slot (sub32 frontReadIndex 1)) = TS_PIPE_READABLE then
      some (.claimed (slot (sub32 frontReadIndex 1)))
    else if pipe.readIndex ≥ sub32 frontReadIndex 1 then
      some .lost
    else
      tsPipeWriterTryReadFrontLoop pipe writeIndex (sub32 frontReadIndex 1) fuel

/-- `tsPipeWriterTryReadFront`.  On the empty observation it stores
`readIndex := readCount` and returns 0; on a winning compare-and-swap it copies
the payload out, releases the flag to `TS_PIPE_WRITABLE` and retracts
`writeIndex` by one (the store uses the snapshot `writeIndex - 1`). -/
def tsPipeWriterTryReadFront (fuel : ℕ) (pipe : TSpipe) : OpResult :=
  match tsPipeWriterTryReadFrontLoop pipe pipe.writeIndex pipe.writeIndex fuel with
  | none => ⟨0, none, pipe, [], none⟩
  | some (.empty rc) => ⟨0, none, { pipe with readIndex := rc }, [], none⟩
  | some .lost => ⟨0, none, pipe, [], none⟩
  | some (.claimed i) =>
    ⟨1, some (pipe.buffer i),
      { pipe with
          flags := Function.update (Function.update pipe.flags i TS_PIPE_INVALID) i
            TS_PIPE_WRITABLE,
          writeIndex := sub32 pipe.writeIndex 1 },
      [(i, TS_PIPE_INVALID), (i, TS_PIPE_WRITABLE)], none⟩

/-- `tsPipeWriterTryWriteFront`: fail if the head slot's flag is not
`TS_PIPE_WRITABLE`; otherwise store the payload, publish the flag as
`TS_PIPE_READABLE` and increment `writeIndex`. -/
def tsPipeWriterTryWriteFront (pipe : TSpipe) (input : ℕ) : OpResult :=
  if pipe.flags (slot pipe.writeIndex) ≠ TS_PIPE_WRITABLE then
    ⟨0, none, pipe, [], none⟩
  else
    ⟨1, none,
      { pipe with
          buffer := Function.update pipe.buffer (slot pipe.writeIndex) input,
          flags := Function.update pipe.flags (slot pipe.writeIndex) TS_PIPE_READABLE,
          writeIndex := add32 pipe.writeIndex 1 },
      [(slot pipe.writeIndex, TS_PIPE_READABLE)], some input⟩

/-- The three operations of the public surface, as trace alphabet. -/
inductive PipeOp where
  | write : ℕ → PipeOp
  | readFront : PipeOp
  | readBack : PipeOp

/-- Fixed fuel used by the trace semantics for the two retry loops. -/
def FUEL : ℕ := TS_PIPE_SIZE + 1

/-- Run one operation on a pipe state. -/
def runOp (pipe : TSpipe) : PipeOp → OpResult
  | .write v => tsPipeWriterTryWriteFront pipe v
  | .readFront => tsPipeWriterTryReadFront FUEL pipe
  | .readBack => tsPipeReaderTryReadBack FUEL pipe

/-- Ghost trace state: the pipe plus the multiset of successfully written
values, the multiset of values delivered by successful reads (front and back
combined), the per-slot history of flag stores, and the log of
(return value, out value) pairs of each operation in order. -/
structure TraceState where
  pipe : TSpipe
  written : Multiset ℕ
  delivered : Multiset ℕ
  hist : Fin TS_PIPE_SIZE → List ℕ
  log : List (ℕ × Option ℕ)

/-- The all-zero pipe (the aggregate-zero initializer `TSpipe pipe = {0}` of
the test driver); note `TS_PIPE_WRITABLE` is the zero pattern. -/
def zeroPipe : TSpipe := ⟨fun _ => 0, fun _ => 0, 0, 0, 0⟩

/-- A freshly initialized pipe: `tsPipeInit` applied to the zero pipe. -/
def freshPipe : TSpipe := tsPipeInit zeroPipe

/-- The trace state at the start: freshly initialized pipe, no ghosts. -/
def initialTrace : TraceState := ⟨freshPipe, 0, 0, fun _ => [], []⟩

/-- Append one flag-store event to the per-slot histories. -/
def appendEvent (h : Fin TS_PIPE_SIZE → List ℕ) (e : Fin TS_PIPE_SIZE × ℕ) :
    Fin TS_PIPE_SIZE → List ℕ :=
  Function.update h e.1 (h e.1 ++ [e.2])

/-- Execute one operation and update the ghost bookkeeping. -/
def stepTrace (t : TraceState) (op : PipeOp) : TraceState :=
  { pipe := (runOp t.pipe op).post
    written := match (runOp t.pipe op).wrote with
      | some v => v ::ₘ t.written
      | none => t.written
    delivered := match (runOp t.pipe op).out with
      | some v => v ::ₘ t.delivered
      | none => t.delivered
    hist := ((runOp t.pipe op).events).foldl appendEvent t.hist
    log := t.log ++ [((runOp t.pipe op).ret, (runOp t.pipe op).out)] }

/-- Run a whole operation sequence from the freshly initialized pipe. -/
def runTrace (ops : List PipeOp) : TraceState := ops.foldl stepTrace initialTrace

/-- A pipe state is reachable when some operation sequence from the freshly
initialized pipe produces it. -/
def Reachable (p : TSpipe) : Prop := ∃ ops : List PipeOp, (runTrace ops).pipe = p

/-- A pipe whose flag words hold stale non-zero contents (for example a pipe
being re-initialized after use, or stack storage that was never zeroed). -/
def dirtyPipe : TSpipe := ⟨fun _ => 0, fun _ => TS_PIPE_READABLE, 7, 7, 7⟩

/-- The pipe after `k` consecutive `tsPipeWriterTryWriteFront` calls with
values `vs 0, ..., vs (k-1)`, starting from the freshly initialized pipe. -/
def fillPipe (vs : ℕ → ℕ) : ℕ → TSpipe
  | 0 => freshPipe
  | k + 1 => (tsPipeWriterTryWriteFront (fillPipe vs k) (vs k)).post

/-- The set of slots whose flag is `TS_PIPE_READABLE`. -/
def readableSlots (p : TSpipe) : Finset (Fin TS_PIPE_SIZE) :=
  Finset.univ.filter (fun k => p.flags k = TS_PIPE_READABLE)

/-- The multiset of payloads sitting in readable slots. -/
def readableVals (p : TSpipe) : Multiset ℕ := (readableSlots p).val.map p.buffer

/-- Legal single transitions of a slot flag: a publish turns WRITABLE into
READABLE, a winning compare-and-swap turns READABLE into IN_FLIGHT
(`TS_PIPE_INVALID`), and the claim holder releases IN_FLIGHT back to
WRITABLE. -/
def legalFlagStep (a b : ℕ) : Prop :=
  (a = TS_PIPE_WRITABLE ∧ b = TS_PIPE_READABLE) ∨
  (a = TS_PIPE_READABLE ∧ b = TS_PIPE_INVALID) ∨
  (a = TS_PIPE_INVALID ∧ b = TS_PIPE_WRITABLE)

/-- `histOkFrom c h`: starting from flag value `c`, the successive stored
values `h` follow `legalFlagStep` at every step. -/
def histOkFrom (c : ℕ) : List ℕ → Prop
  | [] => True
  | b :: rest => legalFlagStep c b ∧ histOkFrom b rest

/-- The flag value a slot holds after starting at `c` and replaying the stores
`h`. -/
def histEnd (c : ℕ) : List ℕ → ℕ
  | [] => c
  | b :: rest => histEnd b rest

/-- The sequential invariant of a pipe state: counters are 32-bit values, every
flag is WRITABLE or READABLE at quiescent points, and the unsigned modular
difference `writeIndex - readCount` equals the number of READABLE slots. -/
structure InvP (p : TSpipe) : Prop where
  wiLt : p.writeIndex < M32
  riLt : p.readIndex < M32
  rcLt : p.readCount < M32
  flagsWR : ∀ k, p.flags k = TS_PIPE_WRITABLE ∨ p.flags k = TS_PIPE_READABLE
  countEq : sub32 p.writeIndex p.readCount = (readableSlots p).card

/-- The full trace invariant: the pipe invariant, conservation of payload
multisets, and well-formed per-slot flag histories whose final letter is the
current flag. -/
structure Inv (t : TraceState) : Prop where
  pipeInv : InvP t.pipe
  consEq : t.written = t.delivered + readableVals t.pipe
  histGood : ∀ k, histOkFrom TS_PIPE_WRITABLE (t.hist k)
  histLast : ∀ k, histEnd TS_PIPE_WRITABLE (t.hist k) = t.pipe.flags k

theorem TS_PIPE_SIZE_eq : TS_PIPE_SIZE = 512 := rfl

theorem M32_eq : M32 = 4294967296 := rfl

theorem add32_lt (a b : ℕ) : add32 a b < M32 := Nat.mod_lt _ (by decide)

theorem sub32_lt (a b : ℕ) : sub32 a b < M32 := Nat.mod_lt _ (by decide)

theorem sub32_succ_left {a b : ℕ} (h : sub32 a b + 1 < M32) :
    sub32 (add32 a 1) b = sub32 a b + 1 := by
  simp only [sub32, add32, M32] at h ⊢
  omega

theorem sub32_succ_right {a b : ℕ} (h : sub32 a b ≠ 0) :
    sub32 a (add32 b 1) = sub32 a b - 1 := by
  simp only [sub32, add32, M32] at h ⊢
  omega

theorem sub32_pred_left {a b : ℕ} (h : sub32 a b ≠ 0) :
    sub32 (sub32 a 1) b = sub32 a b - 1 := by
  simp only [sub32, M32] at h ⊢
  omega

theorem sub32_add_one_sub_one {a : ℕ} (ha : a < M32) : sub32 (add32 a 1) 1 = a := by
  simp only [sub32, add32, M32] at ha ⊢
  omega

theorem slot_val (i : ℕ) : (slot i).val = i % TS_PIPE_SIZE := by
  have h : i &&& (2 ^ 9 - 1) = i % 2 ^ 9 := Nat.and_pow_two_sub_one_eq_mod i 9
  have hm : TS_PIPE_MASK = 2 ^ 9 - 1 := by decide
  have hs : TS_PIPE_SIZE = 2 ^ 9 := by decide
  simp only [slot, hm, hs, h]

theorem slot_small {i : ℕ} (h : i < TS_PIPE_SIZE) : slot i = ⟨i, h⟩ := by
  apply Fin.ext
  rw [slot_val]
  exact Nat.mod_eq_of_lt h

theorem mem_readableSlots {p : TSpipe} {k : Fin TS_PIPE_SIZE} :
    k ∈ readableSlots p ↔ p.flags k = TS_PIPE_READABLE := by
  simp [readableSlots]

theorem readableSlots_update_writable {p q : TSpipe} {s : Fin TS_PIPE_SIZE}
    (hf : q.flags = Function.update p.flags s TS_PIPE_WRITABLE) :
    readableSlots q = (readableSlots p).erase s := by
  ext k
  rw [Finset.mem_erase, mem_readableSlots, mem_readableSlots, hf]
  by_cases hk : k = s
  · subst hk
    simp [Function.update_same]
    decide
  · simp [Function.update_noteq hk, hk]

theorem readableSlots_update_readable {p q : TSpipe} {s : Fin TS_PIPE_SIZE}
    (hf : q.flags = Function.update p.flags s TS_PIPE_READABLE) :
    readableSlots q = insert s (readableSlots p) := by
  ext k
  rw [Finset.mem_insert, mem_readableSlots, mem_readableSlots, hf]
  by_cases hk : k = s
  · subst hk
    simp [Function.update_same]
  · simp [Function.update_noteq hk, hk]

theorem update_update_flags (f : Fin TS_PIPE_SIZE → ℕ) (s : Fin TS_PIPE_SIZE) (a b : ℕ) :
    Function.update (Function.update f s a) s b = Function.update f s b :=
  Function.update_idem a b f

theorem readBackLoop_claimed {p : TSpipe} {rc i fuel : ℕ} {s : Fin TS_PIPE_SIZE}
    (h : tsPipeReaderTryReadBackLoop p rc i fuel = some (.claimed s)) :
    p.flags s = TS_PIPE_READABLE := by
  induction fuel generalizing rc i with
  | zero => simp [tsPipeReaderTryReadBackLoop] at h
  | succ n ih =>
    rw [tsPipeReaderTryReadBackLoop] at h
    split at h
    · simp at h
    · split at h
      · obtain rfl : slot (readBackCandidate p i) = s := by simpa using h
        assumption
      · exact ih h

theorem frontLoop_claimed {p : TSpipe} {wi f fuel : ℕ} {s : Fin TS_PIPE_SIZE}
    (h : tsPipeWriterTryReadFrontLoop p wi f fuel = some (.claimed s)) :
    p.flags s = TS_PIPE_READABLE := by
  induction fuel generalizing f with
  | zero => simp [tsPipeWriterTryReadFrontLoop] at h
  | succ n ih =>
    rw [tsPipeWriterTryReadFrontLoop] at h
    split at h
    · simp at h
    · split at h
      · obtain rfl : slot (sub32 f 1) = s := by simpa using h
        assumption
      · split at h
        · simp at h
        · exact ih h

theorem frontLoop_empty {p : TSpipe} {wi f fuel rc : ℕ}
    (h : tsPipeWriterTryReadFrontLoop p wi f fuel = some (.empty rc)) :
    rc = p.readCount := by
  induction fuel generalizing f with
  | zero => simp [tsPipeWriterTryReadFrontLoop] at h
  | succ n ih =>
    rw [tsPipeWriterTryReadFrontLoop] at h
    split at h
    · simpa using h.symm
    · split at h
      · simp at h
      · split at h
        · simp at h
        · exact ih h

theorem readBack_cases (fuel : ℕ) (p : TSpipe) :
    tsPipeReaderTryReadBack fuel p = ⟨0, none, p, [], none⟩ ∨
    ∃ s : Fin TS_PIPE_SIZE, p.flags s = TS_PIPE_READABLE ∧
      tsPipeReaderTryReadBack fuel p =
        ⟨1, some (p.buffer s),
          { p with
              flags := Function.update (Function.update p.flags s TS_PIPE_INVALID) s
                TS_PIPE_WRITABLE,
              readCount := add32 p.readCount 1 },
          [(s, TS_PIPE_INVALID), (s, TS_PIPE_WRITABLE)], none⟩ := by
  unfold tsPipeReaderTryReadBack
  rcases hres : tsPipeReaderTryReadBackLoop p p.readCount p.readCount fuel with _ | r
  · left; rfl
  · cases r with
    | empty => left; rfl
    | claimed s => right; exact ⟨s, readBackLoop_claimed hres, rfl⟩

theorem frontRead_cases (fuel : ℕ) (p : TSpipe) :
    tsPipeWriterTryReadFront fuel p = ⟨0, none, p, [], none⟩ ∨
    tsPipeWriterTryReadFront fuel p = ⟨0, none, { p with readIndex := p.readCount }, [], none⟩ ∨
    ∃ s : Fin TS_PIPE_SIZE, p.flags s = TS_PIPE_READABLE ∧
      tsPipeWriterTryReadFront fuel p =
        ⟨1, some (p.buffer s),
          { p with
              flags := Function.update (Function.update p.flags s TS_PIPE_INVALID) s
                TS_PIPE_WRITABLE,
              writeIndex := sub32 p.writeIndex 1 },
          [(s, TS_PIPE_INVALID), (s, TS_PIPE_WRITABLE)], none⟩ := by
  unfold tsPipeWriterTryReadFront
  rcases hres : tsPipeWriterTryReadFrontLoop p p.writeIndex p.writeIndex fuel with _ | r
  · left; rfl
  · cases r with
    | empty rc =>
      right; left
      obtain rfl : rc = p.readCount := frontLoop_empty hres
      rfl
    | claimed s => right; right; exact ⟨s, frontLoop_claimed hres, rfl⟩
    | lost => left; rfl

theorem write_cases (p : TSpipe) (v : ℕ) :
    (p.flags (slot p.writeIndex) ≠ TS_PIPE_WRITABLE ∧
      tsPipeWriterTryWriteFront p v = ⟨0, none, p, [], none⟩) ∨
    (p.flags (slot p.writeIndex) = TS_PIPE_WRITABLE ∧
      tsPipeWriterTryWriteFront p v =
        ⟨1, none,
          { p with
              buffer := Function.update p.buffer (slot p.writeIndex) v,
              flags := Function.update p.flags (slot p.writeIndex) TS_PIPE_READABLE,
              writeIndex := add32 p.writeIndex 1 },
          [(slot p.writeIndex, TS_PIPE_READABLE)], some v⟩) := by
  unfold tsPipeWriterTryWriteFront
  by_cases h : p.flags (slot p.writeIndex) = TS_PIPE_WRITABLE
  · right
    refine ⟨h, ?_⟩
    rw [if_neg (by simpa using h)]
  · left
    refine ⟨h, ?_⟩
    rw [if_pos h]

theorem readableVals_congr {p q : TSpipe} (hf : q.flags = p.flags) (hb : q.buffer = p.buffer) :
    readableVals q = readableVals p := by
  unfold readableVals readableSlots
  rw [hf, hb]

theorem readableVals_claim {p q : TSpipe} {s : Fin TS_PIPE_SIZE}
    (hs : p.flags s = TS_PIPE_READABLE)
    (hf : q.flags = Function.update p.flags s TS_PIPE_WRITABLE) (hb : q.buffer = p.buffer) :
    readableVals p = p.buffer s ::ₘ readableVals q := by
  have h1 : readableSlots q = (readableSlots p).erase s := readableSlots_update_writable hf
  have hmem : s ∈ (readableSlots p).val := Finset.mem_val.mpr (mem_readableSlots.mpr hs)
  unfold readableVals
  rw [h1, hb, Finset.erase_val]
  conv_lhs => rw [← Multiset.cons_erase hmem]
  rw [Multiset.map_cons]

set_option maxRecDepth 4000 in
theorem readableVals_publish {p q : TSpipe} {s : Fin TS_PIPE_SIZE} {v : ℕ}
    (hs : p.flags s = TS_PIPE_WRITABLE)
    (hf : q.flags = Function.update p.flags s TS_PIPE_READABLE)
    (hb : q.buffer = Function.update p.buffer s v) :
    readableVals q = v ::ₘ readableVals p := by
  have hnot : s ∉ readableSlots p := by
    rw [mem_readableSlots, hs]
    simp [TS_PIPE_WRITABLE, TS_PIPE_READABLE]
  have h1 : readableSlots q = insert s (readableSlots p) := readableSlots_update_readable hf
  unfold readableVals
  rw [h1, Finset.insert_val_of_not_mem hnot, Multiset.map_cons, hb, Function.update_same]
  congr 1
  apply Multiset.map_congr rfl
  intro x hx
  have hxs : x ≠ s := by
    rintro rfl
    exact hnot (Finset.mem_val.mp hx)
  rw [Function.update_noteq hxs]

theorem foldl_appendEvent_one (h : Fin TS_PIPE_SIZE → List ℕ) (s : Fin TS_PIPE_SIZE) (a : ℕ) :
    List.foldl appendEvent h [(s, a)] = Function.update h s (h s ++ [a]) := rfl

theorem foldl_appendEvent_two (h : Fin TS_PIPE_SIZE → List ℕ) (s : Fin TS_PIPE_SIZE) (a b : ℕ) :
    List.foldl appendEvent h [(s, a), (s, b)] = Function.update h s (h s ++ [a, b]) := by
  show appendEvent (appendEvent h (s, a)) (s, b) = _
  unfold appendEvent
  rw [Function.update_same, Function.update_idem, List.append_assoc]
  rfl

theorem histOkFrom_append {c : ℕ} {h₁ h₂ : List ℕ} :
    histOkFrom c (h₁ ++ h₂) ↔ histOkFrom c h₁ ∧ histOkFrom (histEnd c h₁) h₂ := by
  induction h₁ generalizing c with
  | nil => simp [histOkFrom, histEnd]
  | cons b rest ih => simp [histOkFrom, histEnd, ih, and_assoc]

theorem histEnd_append (c : ℕ) (h₁ h₂ : List ℕ) :
    histEnd c (h₁ ++ h₂) = histEnd (histEnd c h₁) h₂ := by
  induction h₁ generalizing c with
  | nil => rfl
  | cons b rest ih => exact ih b

theorem legal_W_R : legalFlagStep TS_PIPE_WRITABLE TS_PIPE_READABLE := Or.inl ⟨rfl, rfl⟩

theorem legal_R_I : legalFlagStep TS_PIPE_READABLE TS_PIPE_INVALID := Or.inr (Or.inl ⟨rfl, rfl⟩)

theorem legal_I_W : legalFlagStep TS_PIPE_INVALID TS_PIPE_WRITABLE := Or.inr (Or.inr ⟨rfl, rfl⟩)

theorem readableSlots_card_le (p : TSpipe) : (readableSlots p).card ≤ TS_PIPE_SIZE := by
  have h := Finset.card_le_univ (readableSlots p)
  rwa [Fintype.card_fin] at h

theorem count_ne_zero {p : TSpipe} (hp : InvP p) {s : Fin TS_PIPE_SIZE}
    (hs : p.flags s = TS_PIPE_READABLE) : sub32 p.writeIndex p.readCount ≠ 0 := by
  rw [hp.countEq]
  have hmem : s ∈ readableSlots p := mem_readableSlots.mpr hs
  have hpos := Finset.card_pos.mpr ⟨s, hmem⟩
  omega

theorem hist_claim_good {t : TraceState} (ht : Inv t) {s : Fin TS_PIPE_SIZE}
    (hs : t.pipe.flags s = TS_PIPE_READABLE) (k : Fin TS_PIPE_SIZE) :
    histOkFrom TS_PIPE_WRITABLE
      (Function.update t.hist s (t.hist s ++ [TS_PIPE_INVALID, TS_PIPE_WRITABLE]) k) := by
  by_cases hk : k = s
  · subst hk
    rw [Function.update_same, histOkFrom_append]
    refine ⟨ht.histGood k, ?_⟩
    rw [ht.histLast k, hs]
    exact ⟨legal_R_I, legal_I_W, trivial⟩
  · rw [Function.update_noteq hk]
    exact ht.histGood k

theorem hist_claim_last {t : TraceState} (ht : Inv t) {s : Fin TS_PIPE_SIZE}
    (hs : t.pipe.flags s = TS_PIPE_READABLE) (k : Fin TS_PIPE_SIZE) :
    histEnd TS_PIPE_WRITABLE
      (Function.update t.hist s (t.hist s ++ [TS_PIPE_INVALID, TS_PIPE_WRITABLE]) k) =
    Function.update t.pipe.flags s TS_PIPE_WRITABLE k := by
  by_cases hk : k = s
  · subst hk
    rw [Function.update_same, Function.update_same, histEnd_append]
    rfl
  · rw [Function.update_noteq hk, Function.update_noteq hk]
    exact ht.histLast k

theorem flagsWR_update_W {p : TSpipe} (hp : InvP p) (s : Fin TS_PIPE_SIZE)
    (k : Fin TS_PIPE_SIZE) :
    Function.update p.flags s TS_PIPE_WRITABLE k = TS_PIPE_WRITABLE ∨
    Function.update p.flags s TS_PIPE_WRITABLE k = TS_PIPE_READABLE := by
  by_cases hk : k = s
  · subst hk
    rw [Function.update_same]
    exact Or.inl rfl
  · rw [Function.update_noteq hk]
    exact hp.flagsWR k

theorem InvP_writeSucc {p : TSpipe} (hp : InvP p) (v : ℕ)
    (hflag : p.flags (slot p.writeIndex) = TS_PIPE_WRITABLE) :
    InvP { p with
        buffer := Function.update p.buffer (slot p.writeIndex) v,
        flags := Function.update p.flags (slot p.writeIndex) TS_PIPE_READABLE,
        writeIndex := add32 p.writeIndex 1 } := by
  obtain ⟨hwi, hri, hrc, hWR, hcount⟩ := hp
  have hnotmem : slot p.writeIndex ∉ readableSlots p := by
    rw [mem_readableSlots, hflag]
    simp [TS_PIPE_WRITABLE, TS_PIPE_READABLE]
  have hslots : readableSlots
      { p with
          buffer := Function.update p.buffer (slot p.writeIndex) v,
          flags := Function.update p.flags (slot p.writeIndex) TS_PIPE_READABLE,
          writeIndex := add32 p.writeIndex 1 } =
      insert (slot p.writeIndex) (readableSlots p) :=
    readableSlots_update_readable rfl
  refine ⟨add32_lt _ _, hri, hrc, ?_, ?_⟩
  · intro k
    show Function.update p.flags (slot p.writeIndex) TS_PIPE_READABLE k = TS_PIPE_WRITABLE ∨
      Function.update p.flags (slot p.writeIndex) TS_PIPE_READABLE k = TS_PIPE_READABLE
    by_cases hk : k = slot p.writeIndex
    · subst hk
      rw [Function.update_same]
      exact Or.inr rfl
    · rw [Function.update_noteq hk]
      exact hWR k
  · show sub32 (add32 p.writeIndex 1) p.readCount = _
    have hle : (readableSlots p).card ≤ 512 := by
      have h1 := readableSlots_card_le p
      have h2 : TS_PIPE_SIZE = 512 := rfl
      omega
    have hlt : sub32 p.writeIndex p.readCount + 1 < M32 := by
      rw [hcount, M32_eq]
      omega
    rw [sub32_succ_left hlt, hcount, hslots, Finset.card_insert_of_not_mem hnotmem]

theorem InvP_backSucc {p : TSpipe} (hp : InvP p) {s : Fin TS_PIPE_SIZE}
    (hs : p.flags s = TS_PIPE_READABLE) :
    InvP { p with
        flags := Function.update (Function.update p.flags s TS_PIPE_INVALID) s TS_PIPE_WRITABLE,
        readCount := add32 p.readCount 1 } := by
  have hmem : s ∈ readableSlots p := mem_readableSlots.mpr hs
  have hne := count_ne_zero hp hs
  obtain ⟨hwi, hri, hrc, hWR, hcount⟩ := hp
  have hslots : readableSlots
      { p with
          flags := Function.update (Function.update p.flags s TS_PIPE_INVALID) s TS_PIPE_WRITABLE,
          readCount := add32 p.readCount 1 } = (readableSlots p).erase s :=
    readableSlots_update_writable (update_update_flags p.flags s _ _)
  refine ⟨hwi, hri, add32_lt _ _, ?_, ?_⟩
  · intro k
    show Function.update (Function.update p.flags s TS_PIPE_INVALID) s TS_PIPE_WRITABLE k = _ ∨
      Function.update (Function.update p.flags s TS_PIPE_INVALID) s TS_PIPE_WRITABLE k = _
    rw [update_update_flags]
    exact flagsWR_update_W ⟨hwi, hri, hrc, hWR, hcount⟩ s k
  · show sub32 p.writeIndex (add32 p.readCount 1) = _
    rw [sub32_succ_right hne, hcount, hslots, Finset.card_erase_of_mem hmem]

theorem InvP_frontSucc {p : TSpipe} (hp : InvP p) {s : Fin TS_PIPE_SIZE}
    (hs : p.flags s = TS_PIPE_READABLE) :
    InvP { p with
        flags := Function.update (Function.update p.flags s TS_PIPE_INVALID) s TS_PIPE_WRITABLE,
        writeIndex := sub32 p.writeIndex 1 } := by
  have hmem : s ∈ readableSlots p := mem_readableSlots.mpr hs
  have hne := count_ne_zero hp hs
  obtain ⟨hwi, hri, hrc, hWR, hcount⟩ := hp
  have hslots : readableSlots
      { p with
          flags := Function.update (Function.update p.flags s TS_PIPE_INVALID) s TS_PIPE_WRITABLE,
          writeIndex := sub32 p.writeIndex 1 } = (readableSlots p).erase s :=
    readableSlots_update_writable (update_update_flags p.flags s _ _)
  refine ⟨sub32_lt _ _, hri, hrc, ?_, ?_⟩
  · intro k
    show Function.update (Function.update p.flags s TS_PIPE_INVALID) s TS_PIPE_WRITABLE k = _ ∨
      Function.update (Function.update p.flags s TS_PIPE_INVALID) s TS_PIPE_WRITABLE k = _
    rw [update_update_flags]
    exact flagsWR_update_W ⟨hwi, hri, hrc, hWR, hcount⟩ s k
  · show sub32 (sub32 p.writeIndex 1) p.readCount = _
    rw [sub32_pred_left hne, hcount, hslots, Finset.card_erase_of_mem hmem]

theorem Inv_step_noop {t : TraceState} (ht : Inv t) {op : PipeOp} {r : ℕ} {q : TSpipe}
    (heq : runOp t.pipe op = ⟨r, none, q, [], none⟩)
    (hq : InvP q) (hf : q.flags = t.pipe.flags) (hb : q.buffer = t.pipe.buffer) :
    Inv (stepTrace t op) := by
  have h1 : stepTrace t op = ⟨q, t.written, t.delivered, t.hist, t.log ++ [(r, none)]⟩ := by
    unfold stepTrace
    rw [heq]
    rfl
  rw [h1]
  refine ⟨hq, ?_, ht.histGood, ?_⟩
  · show t.written = t.delivered + readableVals q
    rw [readableVals_congr hf hb]
    exact ht.consEq
  · intro k
    show histEnd TS_PIPE_WRITABLE (t.hist k) = q.flags k
    rw [hf]
    exact ht.histLast k

theorem Inv_step_claim {t : TraceState} (ht : Inv t) {op : PipeOp} {s : Fin TS_PIPE_SIZE}
    {q : TSpipe} (hs : t.pipe.flags s = TS_PIPE_READABLE)
    (heq : runOp t.pipe op =
      ⟨1, some (t.pipe.buffer s), q, [(s, TS_PIPE_INVALID), (s, TS_PIPE_WRITABLE)], none⟩)
    (hq : InvP q)
    (hf : q.flags = Function.update (Function.update t.pipe.flags s TS_PIPE_INVALID) s
      TS_PIPE_WRITABLE)
    (hb : q.buffer = t.pipe.buffer) :
    Inv (stepTrace t op) := by
  have hf' : q.flags = Function.update t.pipe.flags s TS_PIPE_WRITABLE := by
    rw [hf, update_update_flags]
  have h1 : stepTrace t op =
      ⟨q, t.written, t.pipe.buffer s ::ₘ t.delivered,
        Function.update t.hist s (t.hist s ++ [TS_PIPE_INVALID, TS_PIPE_WRITABLE]),
        t.log ++ [(1, some (t.pipe.buffer s))]⟩ := by
    unfold stepTrace
    rw [heq]
    rw [foldl_appendEvent_two]
  rw [h1]
  refine ⟨hq, ?_, ?_, ?_⟩
  · show t.written = (t.pipe.buffer s ::ₘ t.delivered) + readableVals q
    have hvals : readableVals t.pipe = t.pipe.buffer s ::ₘ readableVals q :=
      readableVals_claim hs hf' hb
    rw [ht.consEq, hvals, Multiset.cons_add, Multiset.add_cons]
  · intro k
    exact hist_claim_good ht hs k
  · intro k
    show histEnd TS_PIPE_WRITABLE _ = q.flags k
    rw [hf']
    exact hist_claim_last ht hs k

theorem Inv_stepTrace {t : TraceState} (ht : Inv t) (op : PipeOp) : Inv (stepTrace t op) := by
  cases op with
  | write v =>
    rcases write_cases t.pipe v with ⟨hne, heq⟩ | ⟨hflag, heq⟩
    · exact Inv_step_noop ht heq ht.pipeInv rfl rfl
    · have hrun : runOp t.pipe (.write v) = _ := heq
      have h1 : stepTrace t (.write v) =
          ⟨{ t.pipe with
              buffer := Function.update t.pipe.buffer (slot t.pipe.writeIndex) v,
              flags := Function.update t.pipe.flags (slot t.pipe.writeIndex) TS_PIPE_READABLE,
              writeIndex := add32 t.pipe.writeIndex 1 },
            v ::ₘ t.written, t.delivered,
            Function.update t.hist (slot t.pipe.writeIndex)
              (t.hist (slot t.pipe.writeIndex) ++ [TS_PIPE_READABLE]),
            t.log ++ [(1, none)]⟩ := by
        unfold stepTrace
        rw [hrun]
        rw [foldl_appendEvent_one]
      rw [h1]
      refine ⟨InvP_writeSucc ht.pipeInv v hflag, ?_, ?_, ?_⟩
      · show v ::ₘ t.written = t.delivered + readableVals _
        have hvals : readableVals
            { t.pipe with
                buffer := Function.update t.pipe.buffer (slot t.pipe.writeIndex) v,
                flags := Function.update t.pipe.flags (slot t.pipe.writeIndex) TS_PIPE_READABLE,
                writeIndex := add32 t.pipe.writeIndex 1 } = v ::ₘ readableVals t.pipe :=
          readableVals_publish hflag rfl rfl
        rw [hvals, ht.consEq, Multiset.add_cons]
      · intro k
        show histOkFrom TS_PIPE_WRITABLE
          (Function.update t.hist (slot t.pipe.writeIndex)
            (t.hist (slot t.pipe.writeIndex) ++ [TS_PIPE_READABLE]) k)
        by_cases hk : k = slot t.pipe.writeIndex
        · subst hk
          rw [Function.update_same, histOkFrom_append]
          refine ⟨ht.histGood _, ?_⟩
          rw [ht.histLast _, hflag]
          exact ⟨legal_W_R, trivial⟩
        · rw [Function.update_noteq hk]
          exact ht.histGood k
      · intro k
        show histEnd TS_PIPE_WRITABLE
          (Function.update t.hist (slot t.pipe.writeIndex)
            (t.hist (slot t.pipe.writeIndex) ++ [TS_PIPE_READABLE]) k) =
          Function.update t.pipe.flags (slot t.pipe.writeIndex) TS_PIPE_READABLE k
        by_cases hk : k = slot t.pipe.writeIndex
        · subst hk
          rw [Function.update_same, Function.update_same, histEnd_append]
          rfl
        · rw [Function.update_noteq hk, Function.update_noteq hk]
          exact ht.histLast k
  | readFront =>
    rcases frontRead_cases FUEL t.pipe with heq | heq | ⟨s, hs, heq⟩
    · exact Inv_step_noop ht heq ht.pipeInv rfl rfl
    · refine Inv_step_noop ht heq ?_ rfl rfl
      obtain ⟨hwi, hri, hrc, hWR, hcount⟩ := ht.pipeInv
      exact ⟨hwi, hrc, hrc, hWR, hcount⟩
    · exact Inv_step_claim ht hs heq (InvP_frontSucc ht.pipeInv hs) rfl rfl
  | readBack =>
    rcases readBack_cases FUEL t.pipe with heq | ⟨s, hs, heq⟩
    · exact Inv_step_noop ht heq ht.pipeInv rfl rfl
    · exact Inv_step_claim ht hs heq (InvP_backSucc ht.pipeInv hs) rfl rfl

theorem readableSlots_fresh : readableSlots freshPipe = ∅ := by
  ext k
  simp [readableSlots, freshPipe, tsPipeInit, zeroPipe, TS_PIPE_READABLE]

theorem Inv_initialTrace : Inv initialTrace := by
  refine ⟨⟨?_, ?_, ?_, ?_, ?_⟩, ?_, ?_, ?_⟩
  · show (0 : ℕ) < M32
    decide
  · show (0 : ℕ) < M32
    decide
  · show (0 : ℕ) < M32
    decide
  · intro k
    exact Or.inl rfl
  · show sub32 0 0 = (readableSlots freshPipe).card
    rw [readableSlots_fresh]
    decide
  · show (0 : Multiset ℕ) = 0 + readableVals freshPipe
    unfold readableVals
    rw [readableSlots_fresh]
    rfl
  · intro k
    exact trivial
  · intro k
    rfl

theorem Inv_foldl (ops : List PipeOp) :
    ∀ t : TraceState, Inv t → Inv (List.foldl stepTrace t ops) := by
  induction ops with
  | nil => exact fun t ht => ht
  | cons op rest ih => exact fun t ht => ih (stepTrace t op) (Inv_stepTrace ht op)

theorem Inv_runTrace (ops : List PipeOp) : Inv (runTrace ops) :=
  Inv_foldl ops initialTrace Inv_initialTrace

theorem Reachable_InvP {p : TSpipe} (hp : Reachable p) : InvP p := by
  obtain ⟨ops, hops⟩ := hp
  have := (Inv_runTrace ops).pipeInv
  rwa [hops] at this

/-- Claim C10: every buffer and flags access in the three operations computes
its index through `slot`, i.e. as `i & TS_PIPE_MASK`, where
`TS_PIPE_MASK = TS_PIPE_SIZE - 1` and `TS_PIPE_SIZE = 2 ^ 9` is a power of
two; hence for every unsigned 32-bit index value the computed slot index
equals `i mod TS_PIPE_SIZE` and is strictly smaller than `TS_PIPE_SIZE`, so
all array accesses are in bounds. -/
theorem claim_C10 (i : ℕ) :
    (slot i).val = i &&& TS_PIPE_MASK ∧
    i &&& TS_PIPE_MASK = i % TS_PIPE_SIZE ∧
    i &&& TS_PIPE_MASK < TS_PIPE_SIZE ∧
    TS_PIPE_MASK = TS_PIPE_SIZE - 1 ∧
    TS_PIPE_SIZE = 2 ^ 9 :=
  ⟨rfl, slot_val i, (slot i).isLt, rfl, by decide⟩

/-- Claim C1 (code bug): `tsPipeInit` zeroes the buffer and the three
counters, but it does NOT store `TS_PIPE_WRITABLE` into the `flags` array: on
a pipe whose flag words hold stale contents, the flags keep those contents
after `tsPipeInit`, contradicting both the claim and the function's own
documentation ("clear the other bytes of the pipe"). -/
theorem claim_C1_bug :
    (tsPipeInit dirtyPipe).writeIndex = 0 ∧
    (tsPipeInit dirtyPipe).readIndex = 0 ∧
    (tsPipeInit dirtyPipe).readCount = 0 ∧
    (∀ k, (tsPipeInit dirtyPipe).buffer k = 0) ∧
    (tsPipeInit dirtyPipe).flags (slot 0) = TS_PIPE_READABLE ∧
    TS_PIPE_READABLE ≠ TS_PIPE_WRITABLE := by
  refine ⟨rfl, rfl, rfl, fun k => rfl, rfl, ?_⟩
  simp [TS_PIPE_READABLE, TS_PIPE_WRITABLE]

/-- Claim C3: for every operation sequence applied to a freshly initialized
pipe, the unsigned 32-bit difference `writeIndex - readCount` is at most
`TS_PIPE_SIZE` at every quiescent point (as a natural number it is at least 0
by construction): the pipe never overruns. -/
theorem claim_C3 (ops : List PipeOp) :
    sub32 (runTrace ops).pipe.writeIndex (runTrace ops).pipe.readCount ≤ TS_PIPE_SIZE := by
  rw [(Inv_runTrace ops).pipeInv.countEq]
  exact readableSlots_card_le _

/-- Claim C2: over any operation sequence from a freshly initialized pipe, the
multiset of values delivered by successful reads (tail reads and front reads
combined) is contained in the multiset of values accepted by successful
writes — no write is delivered twice — and any successful
`tsPipeReaderTryReadBack` returns a value passed to some earlier successful
`tsPipeWriterTryWriteFront`. -/
theorem claim_C2 (ops : List PipeOp) :
    (runTrace ops).delivered ≤ (runTrace ops).written ∧
    ∀ v : ℕ, (tsPipeReaderTryReadBack FUEL (runTrace ops).pipe).out = some v →
      v ∈ (runTrace ops).written := by
  constructor
  · rw [(Inv_runTrace ops).consEq]
    exact self_le_add_right _ _
  · intro v hv
    rcases readBack_cases FUEL (runTrace ops).pipe with heq | ⟨s, hs, heq⟩
    · rw [heq] at hv
      simp at hv
    · rw [heq] at hv
      obtain rfl : (runTrace ops).pipe.buffer s = v := by simpa using hv
      have hmem : (runTrace ops).pipe.buffer s ∈ readableVals (runTrace ops).pipe := by
        unfold readableVals
        exact Multiset.mem_map_of_mem _ (Finset.mem_val.mpr (mem_readableSlots.mpr hs))
      rw [(Inv_runTrace ops).consEq]
      exact Multiset.mem_add.mpr (Or.inr hmem)

/-- Witness for C2 at a concrete input: after the single write of 5, a
successful tail read returns 5, which is among the written values. -/
theorem claim_C2_witness : 5 ∈ (runTrace [PipeOp.write 5]).written :=
  (claim_C2 [PipeOp.write 5]).2 5 (by decide)

/-- Claim C7: whenever `tsPipeWriterTryReadFront` observes
`writeIndex - readCount == 0` it stores `readIndex := readCount` and returns
0, leaving `writeIndex`, `readCount`, the flags and the buffer unchanged. -/
theorem claim_C7 {p : TSpipe} (hempty : sub32 p.writeIndex p.readCount = 0) :
    (tsPipeWriterTryReadFront FUEL p).ret = 0 ∧
    (tsPipeWriterTryReadFront FUEL p).out = none ∧
    (tsPipeWriterTryReadFront FUEL p).post.readIndex = p.readCount ∧
    (tsPipeWriterTryReadFront FUEL p).post.writeIndex = p.writeIndex ∧
    (tsPipeWriterTryReadFront FUEL p).post.readCount = p.readCount ∧
    (tsPipeWriterTryReadFront FUEL p).post.flags = p.flags ∧
    (tsPipeWriterTryReadFront FUEL p).post.buffer = p.buffer := by
  have hres : tsPipeWriterTryReadFrontLoop p p.writeIndex p.writeIndex FUEL =
      some (.empty p.readCount) := by
    show tsPipeWriterTryReadFrontLoop p p.writeIndex p.writeIndex (TS_PIPE_SIZE + 1) = _
    rw [tsPipeWriterTryReadFrontLoop]
    rw [if_pos hempty]
  unfold tsPipeWriterTryReadFront
  rw [hres]
  exact ⟨rfl, rfl, rfl, rfl, rfl, rfl, rfl⟩

/-- Witness for C7 at a concrete input: the freshly initialized pipe is empty,
so the empty path of the front read is taken. -/
theorem claim_C7_witness :
    (tsPipeWriterTryReadFront FUEL freshPipe).ret = 0 ∧
    (tsPipeWriterTryReadFront FUEL freshPipe).post.readIndex = freshPipe.readCount :=
  ⟨(claim_C7 (by decide)).1, (claim_C7 (by decide)).2.2.1⟩

theorem readBack_first_hit {p : TSpipe}
    (hnum : sub32 p.writeIndex p.readCount ≠ 0)
    (hlt : p.readCount < p.writeIndex)
    (hflag : p.flags (slot p.readCount) = TS_PIPE_READABLE) :
    tsPipeReaderTryReadBack FUEL p =
      ⟨1, some (p.buffer (slot p.readCount)),
        { p with
            flags := Function.update (Function.update p.flags (slot p.readCount)
              TS_PIPE_INVALID) (slot p.readCount) TS_PIPE_WRITABLE,
            readCount := add32 p.readCount 1 },
        [(slot p.readCount, TS_PIPE_INVALID), (slot p.readCount, TS_PIPE_WRITABLE)], none⟩ := by
  have hcand : readBackCandidate p p.readCount = p.readCount := by
    unfold readBackCandidate
    rw [if_neg (by omega)]
  have hloop : tsPipeReaderTryReadBackLoop p p.readCount p.readCount FUEL =
      some (.claimed (slot p.readCount)) := by
    show tsPipeReaderTryReadBackLoop p p.readCount p.readCount (TS_PIPE_SIZE + 1) = _
    rw [tsPipeReaderTryReadBackLoop, if_neg hnum, hcand, if_pos hflag]
  unfold tsPipeReaderTryReadBack
  rw [hloop]

theorem frontRead_first_hit {p : TSpipe}
    (hnum : sub32 p.writeIndex p.readCount ≠ 0)
    (hflag : p.flags (slot (sub32 p.writeIndex 1)) = TS_PIPE_READABLE) :
    tsPipeWriterTryReadFront FUEL p =
      ⟨1, some (p.buffer (slot (sub32 p.writeIndex 1))),
        { p with
            flags := Function.update (Function.update p.flags (slot (sub32 p.writeIndex 1))
              TS_PIPE_INVALID) (slot (sub32 p.writeIndex 1)) TS_PIPE_WRITABLE,
            writeIndex := sub32 p.writeIndex 1 },
        [(slot (sub32 p.writeIndex 1), TS_PIPE_INVALID),
          (slot (sub32 p.writeIndex 1), TS_PIPE_WRITABLE)], none⟩ := by
  have hloop : tsPipeWriterTryReadFrontLoop p p.writeIndex p.writeIndex FUEL =
      some (.claimed (slot (sub32 p.writeIndex 1))) := by
    show tsPipeWriterTryReadFrontLoop p p.writeIndex p.writeIndex (TS_PIPE_SIZE + 1) = _
    rw [tsPipeWriterTryReadFrontLoop, if_neg hnum, if_pos hflag]
  unfold tsPipeWriterTryReadFront
  rw [hloop]

theorem histOkFrom_mem {c : ℕ} {h : List ℕ} (hok : histOkFrom c h) :
    ∀ b ∈ h, b = TS_PIPE_WRITABLE ∨ b = TS_PIPE_READABLE ∨ b = TS_PIPE_INVALID := by
  induction h generalizing c with
  | nil =>
    intro b hb
    simp at hb
  | cons x rest ih =>
    intro b hb
    obtain ⟨hstep, hrest⟩ := hok
    rcases List.mem_cons.mp hb with rfl | hb'
    · rcases hstep with ⟨_, rfl⟩ | ⟨_, rfl⟩ | ⟨_, rfl⟩
      · exact Or.inr (Or.inl rfl)
      · exact Or.inr (Or.inr rfl)
      · exact Or.inl rfl
    · exact ih hrest b hb'

/-- Claim C5: from the freshly initialized pipe, the sequence
write 10, write 20, write 30, front-read, front-read, back-read, back-read
produces exactly the log: three successful writes, a front read returning 30,
a front read returning 20, a back read returning 10, and a failing back
read. -/
theorem claim_C5 :
    (runTrace [PipeOp.write 10, PipeOp.write 20, PipeOp.write 30,
      PipeOp.readFront, PipeOp.readFront, PipeOp.readBack, PipeOp.readBack]).log =
    [(1, none), (1, none), (1, none),
      (1, some 30), (1, some 20), (1, some 10), (0, none)] := by
  decide

/-- Claim C8: for every slot and every operation sequence from the freshly
initialized pipe, the per-slot sequence of flag stores continues the initial
`TS_PIPE_WRITABLE` by legal transitions only — a publish turns WRITABLE into
READABLE, a winning compare-and-swap turns READABLE into IN_FLIGHT
(`TS_PIPE_INVALID`), and the claim holder turns IN_FLIGHT back into WRITABLE —
so the flag history is a word in the cycle (WRITABLE READABLE IN_FLIGHT
WRITABLE)* and every value the flag ever holds is one of the three
sentinels. -/
theorem claim_C8 (ops : List PipeOp) (k : Fin TS_PIPE_SIZE) :
    histOkFrom TS_PIPE_WRITABLE ((runTrace ops).hist k) ∧
    ∀ b ∈ (runTrace ops).hist k,
      b = TS_PIPE_WRITABLE ∨ b = TS_PIPE_READABLE ∨ b = TS_PIPE_INVALID :=
  ⟨(Inv_runTrace ops).histGood k, histOkFrom_mem ((Inv_runTrace ops).histGood k)⟩

theorem fillPipe_spec (vs : ℕ → ℕ) (k : ℕ) (hk : k ≤ TS_PIPE_SIZE) :
    (fillPipe vs k).writeIndex = k ∧
    (fillPipe vs k).readIndex = 0 ∧
    (fillPipe vs k).readCount = 0 ∧
    ∀ j : ℕ, (hj : j < TS_PIPE_SIZE) → (fillPipe vs k).flags ⟨j, hj⟩ =
      if j < k then TS_PIPE_READABLE else TS_PIPE_WRITABLE := by
  induction k with
  | zero =>
    refine ⟨rfl, rfl, rfl, fun j hj => ?_⟩
    rw [if_neg (by omega)]
    rfl
  | succ k ih =>
    obtain ⟨hwi, hri, hrc, hflags⟩ := ih (Nat.le_of_succ_le hk)
    have hk512 : k < TS_PIPE_SIZE := hk
    have hslot : slot (fillPipe vs k).writeIndex = ⟨k, hk512⟩ := by
      rw [hwi]
      exact slot_small hk512
    have hflag : (fillPipe vs k).flags (slot (fillPipe vs k).writeIndex) = TS_PIPE_WRITABLE := by
      rw [hslot, hflags k hk512, if_neg (by omega)]
    rcases write_cases (fillPipe vs k) (vs k) with ⟨hne, _⟩ | ⟨_, heq⟩
    · exact absurd hflag hne
    refine ⟨?_, ?_, ?_, ?_⟩
    · show (tsPipeWriterTryWriteFront (fillPipe vs k) (vs k)).post.writeIndex = k + 1
      rw [heq]
      show add32 (fillPipe vs k).writeIndex 1 = k + 1
      rw [hwi]
      apply Nat.mod_eq_of_lt
      have h2 : TS_PIPE_SIZE = 512 := rfl
      rw [M32_eq]
      omega
    · show (tsPipeWriterTryWriteFront (fillPipe vs k) (vs k)).post.readIndex = 0
      rw [heq]
      exact hri
    · show (tsPipeWriterTryWriteFront (fillPipe vs k) (vs k)).post.readCount = 0
      rw [heq]
      exact hrc
    · intro j hj
      show (tsPipeWriterTryWriteFront (fillPipe vs k) (vs k)).post.flags ⟨j, hj⟩ = _
      rw [heq]
      show Function.update (fillPipe vs k).flags (slot (fillPipe vs k).writeIndex)
        TS_PIPE_READABLE ⟨j, hj⟩ = _
      rw [hslot]
      by_cases hjk : j = k
      · subst hjk
        show Function.update (fillPipe vs j).flags ⟨j, hk512⟩ TS_PIPE_READABLE ⟨j, hk512⟩ = _
        rw [Function.update_same, if_pos (by omega)]
      · have hne2 : (⟨j, hj⟩ : Fin TS_PIPE_SIZE) ≠ ⟨k, hk512⟩ := Fin.ne_of_val_ne hjk
        rw [Function.update_noteq hne2, hflags j hj]
        by_cases h2 : j < k
        · rw [if_pos h2, if_pos (by omega)]
        · rw [if_neg h2, if_neg (by omega)]

theorem write_ret_one {p : TSpipe} (h : p.flags (slot p.writeIndex) = TS_PIPE_WRITABLE)
    (v : ℕ) : (tsPipeWriterTryWriteFront p v).ret = 1 := by
  rcases write_cases p v with ⟨hne, _⟩ | ⟨_, heq⟩
  · exact absurd h hne
  · rw [heq]

theorem write_ret_zero {p : TSpipe} (h : p.flags (slot p.writeIndex) = TS_PIPE_READABLE)
    (v : ℕ) : (tsPipeWriterTryWriteFront p v).ret = 0 := by
  rcases write_cases p v with ⟨_, heq⟩ | ⟨hW, _⟩
  · rw [heq]
  · rw [h] at hW
    exact absurd hW (by simp [TS_PIPE_READABLE, TS_PIPE_WRITABLE])

theorem write_after_drain {P : TSpipe} (hz : 0 < TS_PIPE_SIZE)
    (hslotN : slot P.writeIndex = ⟨0, hz⟩) (hslotRC : slot P.readCount = ⟨0, hz⟩)
    (hnum : sub32 P.writeIndex P.readCount ≠ 0) (hlt2 : P.readCount < P.writeIndex)
    (hflagRC : P.flags (slot P.readCount) = TS_PIPE_READABLE) (v : ℕ) :
    (tsPipeWriterTryWriteFront (tsPipeReaderTryReadBack FUEL P).post v).ret = 1 := by
  have hback := readBack_first_hit hnum hlt2 hflagRC
  have hpost : (tsPipeReaderTryReadBack FUEL P).post.flags
      (slot (tsPipeReaderTryReadBack FUEL P).post.writeIndex) = TS_PIPE_WRITABLE := by
    rw [hback]
    show Function.update (Function.update P.flags _ TS_PIPE_INVALID) _
      TS_PIPE_WRITABLE (slot P.writeIndex) = TS_PIPE_WRITABLE
    rw [hslotN, hslotRC, update_update_flags, Function.update_same]
  exact write_ret_one hpost v

/-- Claim C4: from the freshly initialized pipe and for any choice of payload
values, the first `TS_PIPE_SIZE` calls of `tsPipeWriterTryWriteFront` all
succeed, the call number `TS_PIPE_SIZE + 1` returns 0, a tail read on the full
pipe succeeds, and after it the next write succeeds again. -/
theorem claim_C4 (vs : ℕ → ℕ) :
    (∀ k, k < TS_PIPE_SIZE → (tsPipeWriterTryWriteFront (fillPipe vs k) (vs k)).ret = 1) ∧
    (∀ v, (tsPipeWriterTryWriteFront (fillPipe vs TS_PIPE_SIZE) v).ret = 0) ∧
    (tsPipeReaderTryReadBack FUEL (fillPipe vs TS_PIPE_SIZE)).ret = 1 ∧
    (∀ v, (tsPipeWriterTryWriteFront
        (tsPipeReaderTryReadBack FUEL (fillPipe vs TS_PIPE_SIZE)).post v).ret = 1) := by
  obtain ⟨hwi, hri, hrc, hflags⟩ := fillPipe_spec vs TS_PIPE_SIZE le_rfl
  have hz : (0 : ℕ) < TS_PIPE_SIZE := by decide
  have hslotN : slot (fillPipe vs TS_PIPE_SIZE).writeIndex = ⟨0, hz⟩ := by
    rw [hwi]
    apply Fin.ext
    rw [slot_val]
    show TS_PIPE_SIZE % TS_PIPE_SIZE = 0
    decide
  have hflagN : (fillPipe vs TS_PIPE_SIZE).flags (slot (fillPipe vs TS_PIPE_SIZE).writeIndex) =
      TS_PIPE_READABLE := by
    rw [hslotN, hflags 0 hz, if_pos (by decide)]
  have hslotRC : slot (fillPipe vs TS_PIPE_SIZE).readCount = ⟨0, hz⟩ := by
    rw [hrc]
    exact slot_small hz
  have hnum : sub32 (fillPipe vs TS_PIPE_SIZE).writeIndex
      (fillPipe vs TS_PIPE_SIZE).readCount ≠ 0 := by
    rw [hwi, hrc]
    decide
  have hlt2 : (fillPipe vs TS_PIPE_SIZE).readCount < (fillPipe vs TS_PIPE_SIZE).writeIndex := by
    rw [hwi, hrc]
    decide
  have hflagRC : (fillPipe vs TS_PIPE_SIZE).flags (slot (fillPipe vs TS_PIPE_SIZE).readCount) =
      TS_PIPE_READABLE := by
    rw [hslotRC, hflags 0 hz, if_pos (by decide)]
  refine ⟨?_, ?_, ?_, ?_⟩
  · intro k hk
    obtain ⟨hwi2, h2, h3, hflags2⟩ := fillPipe_spec vs k (le_of_lt hk)
    refine write_ret_one ?_ (vs k)
    rw [hwi2, slot_small hk, hflags2 k hk, if_neg (by omega)]
  · intro v
    exact write_ret_zero hflagN v
  · rw [readBack_first_hit hnum hlt2 hflagRC]
  · intro v
    exact write_after_drain hz hslotN hslotRC hnum hlt2 hflagRC v

/-- Witness for C4 at concrete inputs: with all-zero payloads, the first write
on the freshly initialized pipe succeeds, the write on the full pipe fails,
the tail read on the full pipe succeeds, and the write after it succeeds. -/
theorem claim_C4_witness :
    (tsPipeWriterTryWriteFront (fillPipe (fun _ => 0) 0) 0).ret = 1 ∧
    (tsPipeWriterTryWriteFront (fillPipe (fun _ => 0) TS_PIPE_SIZE) 0).ret = 0 ∧
    (tsPipeReaderTryReadBack FUEL (fillPipe (fun _ => 0) TS_PIPE_SIZE)).ret = 1 ∧
    (tsPipeWriterTryWriteFront
      (tsPipeReaderTryReadBack FUEL (fillPipe (fun _ => 0) TS_PIPE_SIZE)).post 0).ret = 1 :=
  ⟨(claim_C4 (fun _ => 0)).1 0 (by decide), (claim_C4 (fun _ => 0)).2.1 0,
    (claim_C4 (fun _ => 0)).2.2.1, (claim_C4 (fun _ => 0)).2.2.2 0⟩

theorem roundtrip_write_front {p q : TSpipe} {v : ℕ} (hwi : p.writeIndex < M32)
    (hcardlt : (readableSlots p).card < TS_PIPE_SIZE)
    (hcount : sub32 p.writeIndex p.readCount = (readableSlots p).card)
    (hqb : q.buffer = Function.update p.buffer (slot p.writeIndex) v)
    (hqf : q.flags = Function.update p.flags (slot p.writeIndex) TS_PIPE_READABLE)
    (hqw : q.writeIndex = add32 p.writeIndex 1)
    (hqr : q.readCount = p.readCount) :
    (tsPipeWriterTryReadFront FUEL q).ret = 1 ∧
    (tsPipeWriterTryReadFront FUEL q).out = some v ∧
    (tsPipeWriterTryReadFront FUEL q).post.writeIndex = p.writeIndex ∧
    (tsPipeWriterTryReadFront FUEL q).post.readCount = p.readCount := by
  have hsub : sub32 q.writeIndex 1 = p.writeIndex := by
    rw [hqw]
    exact sub32_add_one_sub_one hwi
  have hnum : sub32 q.writeIndex q.readCount ≠ 0 := by
    rw [hqw, hqr]
    have h1 : sub32 p.writeIndex p.readCount + 1 < M32 := by
      have h2 : TS_PIPE_SIZE = 512 := rfl
      rw [hcount, M32_eq]
      omega
    rw [sub32_succ_left h1]
    omega
  have hflagq : q.flags (slot (sub32 q.writeIndex 1)) = TS_PIPE_READABLE := by
    rw [hqf, hsub, Function.update_same]
  have hfront := frontRead_first_hit hnum hflagq
  rw [hfront]
  refine ⟨rfl, ?_, ?_, ?_⟩
  · show some (q.buffer (slot (sub32 q.writeIndex 1))) = some v
    rw [hqb, hsub, Function.update_same]
  · show sub32 q.writeIndex 1 = p.writeIndex
    exact hsub
  · show q.readCount = p.readCount
    exact hqr

/-- Counterexample to claim C6 as stated: at the reachable state holding one
outstanding item (after init and a successful write of 1), a further write of
2 succeeds and the immediate front read succeeds and returns 2, yet
`tsPipeIsEmpty` afterwards is false, because the first item is still in the
pipe. -/
theorem claim_C6_counterexample :
    (tsPipeWriterTryWriteFront (runTrace [PipeOp.write 1]).pipe 2).ret = 1 ∧
    (tsPipeWriterTryReadFront FUEL
      (tsPipeWriterTryWriteFront (runTrace [PipeOp.write 1]).pipe 2).post).ret = 1 ∧
    (tsPipeWriterTryReadFront FUEL
      (tsPipeWriterTryWriteFront (runTrace [PipeOp.write 1]).pipe 2).post).out = some 2 ∧
    tsPipeIsEmpty (tsPipeWriterTryReadFront FUEL
      (tsPipeWriterTryWriteFront (runTrace [PipeOp.write 1]).pipe 2).post).post = false := by
  decide

/-- Claim C6, amended: for every reachable pipe state and value `v`, a
successful `tsPipeWriterTryWriteFront` of `v` followed immediately by
`tsPipeWriterTryReadFront` succeeds and returns `v`; `tsPipeIsEmpty`
afterwards returns what it returned before the write (it returns true only
when the pipe was empty to begin with, not in general). -/
theorem claim_C6_amended {p : TSpipe} (hp : Reachable p) (v : ℕ)
    (hsucc : (tsPipeWriterTryWriteFront p v).ret = 1) :
    (tsPipeWriterTryReadFront FUEL (tsPipeWriterTryWriteFront p v).post).ret = 1 ∧
    (tsPipeWriterTryReadFront FUEL (tsPipeWriterTryWriteFront p v).post).out = some v ∧
    tsPipeIsEmpty (tsPipeWriterTryReadFront FUEL (tsPipeWriterTryWriteFront p v).post).post =
      tsPipeIsEmpty p := by
  obtain ⟨hwi, hri, hrc, hWR, hcount⟩ := Reachable_InvP hp
  rcases write_cases p v with ⟨_, heq⟩ | ⟨hflag, heq⟩
  · rw [heq] at hsucc
    simp at hsucc
  · have hnotmem : slot p.writeIndex ∉ readableSlots p := by
      rw [mem_readableSlots, hflag]
      simp [TS_PIPE_WRITABLE, TS_PIPE_READABLE]
    have hcardlt : (readableSlots p).card < TS_PIPE_SIZE := by
      have hssub : readableSlots p ⊂ Finset.univ :=
        Finset.ssubset_univ_iff.mpr (fun huniv => hnotmem (by rw [huniv]; exact Finset.mem_univ _))
      have hlt := Finset.card_lt_card hssub
      rwa [Finset.card_univ, Fintype.card_fin] at hlt
    have hqb : (tsPipeWriterTryWriteFront p v).post.buffer =
        Function.update p.buffer (slot p.writeIndex) v := by rw [heq]
    have hqf : (tsPipeWriterTryWriteFront p v).post.flags =
        Function.update p.flags (slot p.writeIndex) TS_PIPE_READABLE := by rw [heq]
    have hqw : (tsPipeWriterTryWriteFront p v).post.writeIndex = add32 p.writeIndex 1 := by
      rw [heq]
    have hqr : (tsPipeWriterTryWriteFront p v).post.readCount = p.readCount := by rw [heq]
    have hrt := roundtrip_write_front hwi hcardlt hcount hqb hqf hqw hqr
    refine ⟨hrt.1, hrt.2.1, ?_⟩
    unfold tsPipeIsEmpty
    rw [hrt.2.2.1, hrt.2.2.2]

/-- Witness for the amended C6 at a concrete input: the freshly initialized
pipe is reachable, the write of 7 succeeds, and the immediate front read
returns 7. -/
theorem claim_C6_witness :
    (tsPipeWriterTryReadFront FUEL (tsPipeWriterTryWriteFront freshPipe 7).post).out = some 7 :=
  (claim_C6_amended ⟨[], rfl⟩ 7 (by decide)).2.1

end ThreadPipe
